import Mathlib

/-!
Verification of the journaldriver tail-and-forward pipeline (src/main.rs).

The Rust source is shallowly embedded: pure functions become Lean
functions, and the effectful parts (HTTP posts, journal reads, file
system writes, the monotonic clock) are made explicit by passing oracle
values for the outcomes of the external calls and by returning traces of
the performed effects.  Machine integers are modelled as Nat/Int (no
overflow is reachable at the bit widths involved; where a Rust bound
check exists it is modelled explicitly).
-/

namespace Journaldriver

/-!  JSON values, as produced by the serde_json dependency
(serde_json::Value).  Numbers keep their decimal lexeme: no code path of
journaldriver inspects a numeric value, only the classification of the
parsed value matters, so IEEE-754 semantics are not modelled (in
particular the float-overflow rejection of serde_json is out of scope).
Object members are kept in textual order. -/

inductive Json where
  | null
  | bool (b : Bool)
  | num (lexeme : String)
  | str (s : String)
  | arr (elems : List Json)
  | obj (members : List (String × Json))

/-- serde_json::Value::is_object. -/
def Json.isObject : Json → Bool
  | .obj _ => true
  | _ => false

/-- The opening curly brace character (written by code point to keep the
source free of literal braces in code position). -/
def lbrace : Char := Char.ofNat 123

/-- The closing curly brace character. -/
def rbrace : Char := Char.ofNat 125

/-- JSON insignificant whitespace (space, tab, line feed, carriage
return), as skipped by serde_json between tokens. -/
def jsonWs (c : Char) : Bool := c = ' ' || c = '\t' || c = '\n' || c = '\r'

/-- Skip insignificant whitespace. -/
def skipWs (cs : List Char) : List Char := cs.dropWhile jsonWs

/-- Value of one hex digit, if any. -/
def hexVal (c : Char) : Option Nat :=
  if '0' ≤ c ∧ c ≤ '9' then some (c.toNat - '0'.toNat)
  else if 'a' ≤ c ∧ c ≤ 'f' then some (c.toNat - 'a'.toNat + 10)
  else if 'A' ≤ c ∧ c ≤ 'F' then some (c.toNat - 'A'.toNat + 10)
  else none

/-- Parse exactly four hex digits. -/
def parseHex4 : List Char → Option (Nat × List Char)
  | a :: b :: c :: d :: rest => do
    let x ← hexVal a
    let y ← hexVal b
    let z ← hexVal c
    let w ← hexVal d
    pure (((x * 16 + y) * 16 + z) * 16 + w, rest)
  | _ => none

/-- Body of a JSON string (after the opening quote): ordinary
characters, the JSON escapes, and surrogate-pair handling for the u
escape; unescaped control characters and lone surrogates are rejected,
as in serde_json.  Fueled to stay structurally recursive; a fuel of one
more than the character count always suffices. -/
def parseStringBody : Nat → List Char → List Char → Option (String × List Char)
  | 0, _, _ => none
  | fuel + 1, acc, cs =>
    match cs with
    | [] => none
    | '\"' :: rest => some (String.mk acc.reverse, rest)
    | '\\' :: 'u' :: rest =>
      match parseHex4 rest with
      | none => none
      | some (code, rest2) =>
        if 0xD800 ≤ code ∧ code ≤ 0xDBFF then
          match rest2 with
          | '\\' :: 'u' :: rest3 =>
            match parseHex4 rest3 with
            | none => none
            | some (low, rest4) =>
              if 0xDC00 ≤ low ∧ low ≤ 0xDFFF then
                parseStringBody fuel
                  (Char.ofNat (0x10000 + (code - 0xD800) * 0x400 + (low - 0xDC00)) :: acc) rest4
              else none
          | _ => none
        else if 0xDC00 ≤ code ∧ code ≤ 0xDFFF then none
        else parseStringBody fuel (Char.ofNat code :: acc) rest2
    | '\\' :: e :: rest =>
      if e = '\"' then parseStringBody fuel ('\"' :: acc) rest
      else if e = '\\' then parseStringBody fuel ('\\' :: acc) rest
      else if e = '/' then parseStringBody fuel ('/' :: acc) rest
      else if e = 'b' then parseStringBody fuel (Char.ofNat 8 :: acc) rest
      else if e = 'f' then parseStringBody fuel (Char.ofNat 12 :: acc) rest
      else if e = 'n' then parseStringBody fuel ('\n' :: acc) rest
      else if e = 'r' then parseStringBody fuel ('\r' :: acc) rest
      else if e = 't' then parseStringBody fuel ('\t' :: acc) rest
      else none
    | c :: rest =>
      if c.toNat < 32 then none else parseStringBody fuel (c :: acc) rest

/-- Longest digit prefix and the remainder. -/
def spanDigits (cs : List Char) : List Char × List Char :=
  (cs.takeWhile Char.isDigit, cs.dropWhile Char.isDigit)

/-- Integer part of a JSON number: a single zero, or a nonzero digit
followed by digits. -/
def parseIntPart : List Char → Option (List Char × List Char)
  | '0' :: rest => some (['0'], rest)
  | c :: rest =>
    if c.isDigit then
      let (ds, rest2) := spanDigits rest
      some (c :: ds, rest2)
    else none
  | [] => none

/-- Optional fraction part of a JSON number. -/
def parseFrac (cs : List Char) : Option (List Char × List Char) :=
  match cs with
  | '.' :: rest =>
    let (ds, rest2) := spanDigits rest
    if ds.isEmpty then none else some ('.' :: ds, rest2)
  | _ => some ([], cs)

/-- Optional exponent part of a JSON number. -/
def parseExp (cs : List Char) : Option (List Char × List Char) :=
  match cs with
  | c :: rest =>
    if c = 'e' ∨ c = 'E' then
      match rest with
      | '+' :: r =>
        let (ds, rest3) := spanDigits r
        if ds.isEmpty then none else some (c :: '+' :: ds, rest3)
      | '-' :: r =>
        let (ds, rest3) := spanDigits r
        if ds.isEmpty then none else some (c :: '-' :: ds, rest3)
      | r =>
        let (ds, rest3) := spanDigits r
        if ds.isEmpty then none else some (c :: ds, rest3)
    else some ([], cs)
  | [] => some ([], [])

/-- A JSON number: optional minus, integer part, optional fraction,
optional exponent.  The lexeme is kept verbatim. -/
def parseNumber (cs : List Char) : Option (Json × List Char) :=
  let (sgn, cs1) : List Char × List Char :=
    match cs with
    | '-' :: rest => (['-'], rest)
    | _ => ([], cs)
  match parseIntPart cs1 with
  | none => none
  | some (ip, cs2) =>
    match parseFrac cs2 with
    | none => none
    | some (fp, cs3) =>
      match parseExp cs3 with
      | none => none
      | some (ep, cs4) => some (.num (String.mk (sgn ++ ip ++ fp ++ ep)), cs4)

/-- Parser mode: a single value, the remaining elements of an array, or
the remaining members of an object.  The depth field is the number of
container levels that may still be opened (serde_json enforces a
recursion limit of 128 container levels). -/
inductive PMode where
  | value (depth : Nat)
  | elems (depth : Nat) (acc : List Json)
  | members (depth : Nat) (acc : List (String × Json))

/-- Recursive-descent JSON parser modelling serde_json::from_str for
Value.  Structurally recursive on fuel; each recursive call consumes at
least one input character first, so a fuel of twice the input length
plus a constant always suffices. -/
def parseJ : Nat → PMode → List Char → Option (Json × List Char)
  | 0, _, _ => none
  | fuel + 1, .value depth, cs =>
    match skipWs cs with
    | [] => none
    | c :: rest =>
      if c = 'n' then
        match rest with
        | 'u' :: 'l' :: 'l' :: r => some (.null, r)
        | _ => none
      else if c = 't' then
        match rest with
        | 'r' :: 'u' :: 'e' :: r => some (.bool true, r)
        | _ => none
      else if c = 'f' then
        match rest with
        | 'a' :: 'l' :: 's' :: 'e' :: r => some (.bool false, r)
        | _ => none
      else if c = '\"' then
        (parseStringBody (rest.length + 1) [] rest).map (fun p => (.str p.1, p.2))
      else if c = '-' ∨ c.isDigit then parseNumber (c :: rest)
      else if c = '[' then
        if depth = 0 then none
        else
          match skipWs rest with
          | [] => none
          | c2 :: r2 =>
            if c2 = ']' then some (.arr [], r2)
            else parseJ fuel (.elems (depth - 1) []) (c2 :: r2)
      else if c = lbrace then
        if depth = 0 then none
        else
          match skipWs rest with
          | [] => none
          | c2 :: r2 =>
            if c2 = rbrace then some (.obj [], r2)
            else parseJ fuel (.members (depth - 1) []) (c2 :: r2)
      else none
  | fuel + 1, .elems depth acc, cs =>
    match parseJ fuel (.value depth) cs with
    | none => none
    | some (v, rest) =>
      match skipWs rest with
      | [] => none
      | c :: r =>
        if c = ',' then parseJ fuel (.elems depth (acc ++ [v])) r
        else if c = ']' then some (.arr (acc ++ [v]), r)
        else none
  | fuel + 1, .members depth acc, cs =>
    match skipWs cs with
    | [] => none
    | c :: rest =>
      if c = '\"' then
        match parseStringBody (rest.length + 1) [] rest with
        | none => none
        | some (key, rest2) =>
          match skipWs rest2 with
          | [] => none
          | c2 :: rest3 =>
            if c2 = ':' then
              match parseJ fuel (.value depth) rest3 with
              | none => none
              | some (v, rest4) =>
                match skipWs rest4 with
                | [] => none
                | c3 :: rest5 =>
                  if c3 = ',' then parseJ fuel (.members depth (acc ++ [(key, v)])) rest5
                  else if c3 = rbrace then some (.obj (acc ++ [(key, v)]), rest5)
                  else none
            else none
      else none

/-- serde_json::from_str for Value: parse one value, then require only
whitespace up to the end of input. -/
def json_from_str (s : String) : Option Json :=
  let cs := s.toList
  match parseJ (2 * cs.length + 8) (.value 128) cs with
  | none => none
  | some (v, rest) => if (skipWs rest).isEmpty then some v else none

/-!  Payload classification (src/main.rs, message_to_payload). -/

/-- The two payload shapes supported by journaldriver (enum Payload in
src/main.rs). -/
inductive Payload where
  | textPayload (text_payload : String)
  | jsonPayload (json_payload : Json)

/-- message_to_payload from src/main.rs: an absent message becomes the
literal text "empty log entry"; a present message is parsed as JSON and
kept as a structured payload only when the parse succeeds and yields an
object; every other case keeps the original text. -/
def message_to_payload : Option String → Payload
  | none => .textPayload "empty log entry"
  | some text_payload =>
    match json_from_str text_payload with
    | some json_payload =>
      if json_payload.isObject then .jsonPayload json_payload
      else .textPayload text_payload
    | none => .textPayload text_payload

/-!  Timestamp parsing (src/main.rs, parse_microseconds).

Rust strings are UTF-8; input.len() counts bytes and the slices
input[..10] / input[10..] are byte slices.  The embedding counts
characters instead: on ASCII input (the only input on which the claims
bear) the two coincide, and on non-ASCII input both the source and the
model fail to produce a value (the source returns None or panics on a
non-boundary slice; the model returns none). -/

/-- Decimal value of a digit string (no sign, no validation). -/
def digitsVal (l : List Char) : Nat :=
  l.foldl (fun a c => a * 10 + (c.toNat - 48)) 0

/-- Shared core of Rust integer parsing: a nonempty, all-ASCII-digit
string, by value. -/
def parseDigitsNat (l : List Char) : Option Nat :=
  if l.isEmpty then none
  else if l.all Char.isDigit then some (digitsVal l) else none

/-- Rust str::parse for i64: optional single leading sign, then one or
more ASCII digits, within the i64 range. -/
def rust_parse_i64 (l : List Char) : Option Int :=
  match l with
  | '+' :: rest =>
    (parseDigitsNat rest).bind fun n =>
      if n ≤ 2 ^ 63 - 1 then some (n : Int) else none
  | '-' :: rest =>
    (parseDigitsNat rest).bind fun n =>
      if n ≤ 2 ^ 63 then some (-(n : Int)) else none
  | _ =>
    (parseDigitsNat l).bind fun n =>
      if n ≤ 2 ^ 63 - 1 then some (n : Int) else none

/-- Rust str::parse for u32: optional leading plus sign, then one or
more ASCII digits, within the u32 range (a minus sign is rejected). -/
def rust_parse_u32 (l : List Char) : Option Nat :=
  match l with
  | '+' :: rest =>
    (parseDigitsNat rest).bind fun n =>
      if n ≤ 2 ^ 32 - 1 then some n else none
  | _ =>
    (parseDigitsNat l).bind fun n =>
      if n ≤ 2 ^ 32 - 1 then some n else none

/-- A UTC instant in the chrono representation: whole seconds since the
Unix epoch and a nanosecond-of-second count. -/
abbrev UtcInstant := Int × Nat

/-- Smallest timestamp representable by chrono (seconds of
-262144-01-01T00:00:00Z). -/
def CHRONO_MIN_TS : Int := -8334632851200

/-- Largest timestamp representable by chrono (seconds of
262143-12-31T23:59:59Z). -/
def CHRONO_MAX_TS : Int := 8210298412799

/-- chrono Utc.timestamp_opt: Single exactly when the seconds lie in
chrono's representable range and the nanosecond count is below two
seconds (values of one second or more encode leap seconds); otherwise
None. -/
def utc_timestamp_opt (secs : Int) (nanos : Nat) : Option UtcInstant :=
  if CHRONO_MIN_TS ≤ secs ∧ secs ≤ CHRONO_MAX_TS ∧ nanos < 2000000000 then
    some (secs, nanos)
  else none

/-- parse_microseconds from src/main.rs: a 16-character input is split
after the tenth character; the head is parsed as i64 seconds and the
tail as u32 microseconds (Rust str::parse semantics), and the pair is
turned into a UTC instant via chrono; any failure yields none. -/
def parse_microseconds (input : String) : Option UtcInstant :=
  if input.length ≠ 16 then none
  else
    match rust_parse_i64 (input.toList.take 10), rust_parse_u32 (input.toList.drop 10) with
    | some seconds, some micros => utc_timestamp_opt seconds (micros * 1000)
    | _, _ => none

/-!  Severity mapping (src/main.rs, priority_to_severity). -/

/-- priority_to_severity from src/main.rs. -/
def priority_to_severity (priority : String) : Option Nat :=
  if priority = "0" then some 800
  else if priority = "1" then some 700
  else if priority = "2" then some 600
  else if priority = "3" then some 500
  else if priority = "4" then some 400
  else if priority = "5" then some 300
  else if priority = "6" then some 200
  else if priority = "7" then some 100
  else none

/-!  Tokens (src/main.rs, struct Token and its producers).

Instants of the monotonic clock and durations are modelled as
nanosecond counts; Instant::elapsed is now minus fetched_at (the
monotonic clock never runs backwards, and Nat subtraction agrees with
Duration subtraction on that domain). -/

/-- Nanoseconds per second, for Duration::from_secs. -/
def NANOS_PER_SEC : Nat := 1000000000

/-- struct Token from src/main.rs: the bearer string, the monotonic
instant it was fetched at, and its lifetime. -/
structure Token where
  token : String
  fetched_at : Nat
  expires : Nat

/-- Token::is_expired: strictly more time elapsed since fetched_at than
the stored lifetime. -/
def Token.is_expired (t : Token) (now : Nat) : Bool :=
  now - t.fetched_at > t.expires

/-- Body of the metadata token endpoint response. -/
structure TokenResponse where
  expires_in : Nat
  access_token : String

/-- get_metadata_token from src/main.rs, success path: the HTTP
exchange is external, so the parsed response and the current instant
are parameters.  The lifetime is half the declared expires_in (Rust
integer division), converted by Duration::from_secs. -/
def get_metadata_token (resp : TokenResponse) (now : Nat) : Token :=
  { fetched_at := now
    expires := resp.expires_in / 2 * NANOS_PER_SEC
    token := resp.access_token }

/-- sign_service_account_token from src/main.rs, success path: the JWT
assembly and RS256 signature are external (medallion), so the signed
token string and the current instant are parameters.  The lifetime is a
fixed 3000 seconds. -/
def sign_service_account_token (signedJwt : String) (now : Nat) : Token :=
  { token := signedJwt
    fetched_at := now
    expires := 3000 * NANOS_PER_SEC }

/-!  Log entries and upload requests (src/main.rs). -/

/-- struct LogEntry from src/main.rs. -/
structure LogEntry where
  labels : Json
  timestamp : Option UtcInstant
  payload : Payload
  severity : Option Nat

/-- The JSON body built by prepare_request in src/main.rs.  The json!
object literal is modelled as a record with the same four fields. -/
structure Request where
  logName : String
  resource : Json
  entries : List LogEntry
  partialSuccess : Bool

/-- Process-lifetime identity values (PROJECT_ID, LOG_NAME,
MONITORED_RESOURCE lazy statics), resolved at startup from the
environment or the metadata server. -/
structure Env where
  project_id : String
  log_name : String
  resource : Json

/-- prepare_request from src/main.rs. -/
def prepare_request (env : Env) (entries : List LogEntry) : Request :=
  { logName := "projects/" ++ env.project_id ++ "/logs/" ++ env.log_name
    resource := env.resource
    entries := entries
    partialSuccess := true }

/-- Rust slice::chunks, fueled for structural recursion: the fuel is
the list length, and every step removes at least one element when the
chunk size is positive, so the fuel never runs out on the wrapper's
call. -/
def chunksFuel (c : Nat) : Nat → List α → List (List α)
  | _, [] => []
  | 0, l => [l]
  | fuel + 1, l => l.take c :: chunksFuel c fuel (l.drop c)

/-- Rust slice::chunks: contiguous chunks of at most c elements, in
order, the last one possibly shorter; the empty slice has no chunks. -/
def chunksOf (c : Nat) (l : List α) : List (List α) :=
  chunksFuel c l.length l

/-!  HTTP upload (src/main.rs, write_entries and flush).

The network is external: the outcome of each POST is an oracle value.
A POST either fails in transport (the question-mark on send) or yields
a status code and the optional response body text. -/

/-- Outcome of one HTTP POST. -/
inductive HttpResult where
  | response (status : Nat) (body : Option String)
  | transportError (msg : String)

/-- reqwest StatusCode::is_success: the 2xx range. -/
def status_is_success (s : Nat) : Bool := 200 ≤ s ∧ s < 300

/-- write_entries from src/main.rs: send the request with the bearer
token; a transport error propagates, a non-2xx status becomes an error
carrying the body text (or a placeholder) and the status. -/
def write_entries (request : Request) (result : HttpResult) : Except String Unit :=
  match result with
  | .transportError msg => .error msg
  | .response status body =>
    if status_is_success status then .ok ()
    else .error ((body.getD "no response body") ++ " (" ++ toString status ++ ")")

/-- One POST actually performed: the bearer carried in the
Authorization header and the request body. -/
structure PostEvent where
  bearer : String
  request : Request

/-- The for-loop over entries.chunks(750) in flush: every chunk is
posted in order regardless of outcomes; a failed write is logged with
the chunk length and the error.  The index threads the oracle for the
successive POST outcomes. -/
def post_chunks (tok : Token) (env : Env) (http : Nat → HttpResult) :
    Nat → List (List LogEntry) → List PostEvent × List String
  | _, [] => ([], [])
  | i, chunk :: rest =>
    let request := prepare_request env chunk
    let outcome := write_entries request (http i)
    let tailOut := post_chunks tok env http (i + 1) rest
    (⟨tok.token, request⟩ :: tailOut.1,
      match outcome with
      | .error e => ("Failed to write " ++ toString chunk.length ++ " entries: " ++ e) :: tailOut.2
      | .ok _ => tailOut.2)

/-- Everything observable about one call to flush: the token left in
the caller's variable, the POSTs performed in order, the error lines
logged, the cursor write (some when persist_cursor succeeded), and the
value flush returns. -/
structure FlushOut where
  token : Token
  posted : List PostEvent
  logged_errors : List String
  persisted : Option String
  result : Except String Unit

/-- flush from src/main.rs.  Oracles: refresh is the outcome of
get_token (consulted only when the token is expired at instant now),
http gives the outcome of the i-th POST, persist is the outcome of
persist_cursor's file write.  An expired token with a failing refresh
returns that error before anything is posted; otherwise every chunk of
750 is posted in order and the cursor is persisted unconditionally
afterwards, the persist outcome being flush's return value. -/
def flush (env : Env) (refresh : Except String Token) (http : Nat → HttpResult)
    (persist : Except String Unit) (now : Nat) (token : Token)
    (entries : List LogEntry) (cursor : String) : FlushOut :=
  match (if token.is_expired now then refresh else .ok token) with
  | .error e => ⟨token, [], [], none, .error e⟩
  | .ok tok =>
    let out := post_chunks tok env http 0 (chunksOf 750 entries)
    match persist with
    | .ok _ => ⟨tok, out.1, out.2, some cursor, .ok ()⟩
    | .error e => ⟨tok, out.1, out.2, none, .error e⟩

/-- The error line flush logs for the chunk at a given index, if its
write fails (none when the write succeeds); used to state what
flush logs. -/
def write_log_line (env : Env) (http : Nat → HttpResult) (p : Nat × List LogEntry) :
    Option String :=
  match write_entries (prepare_request env p.2) (http p.1) with
  | .error e => some ("Failed to write " ++ toString p.2.length ++ " entries: " ++ e)
  | .ok _ => none

/-!  Cursor store (src/main.rs, initial_cursor and persist_cursor). -/

/-- The kinds of std::io::Error distinguished by the code. -/
inductive IoErrorKind where
  | notFound
  | permissionDenied
  | other
deriving DecidableEq

/-- A std::io::Error: its kind and display text. -/
structure IoError where
  kind : IoErrorKind
  msg : String

/-- Rust char::is_whitespace: the Unicode White_Space property. -/
def rustIsWhitespace (c : Char) : Bool :=
  c.toNat = 0x9 || c.toNat = 0xA || c.toNat = 0xB || c.toNat = 0xC ||
  c.toNat = 0xD || c.toNat = 0x20 || c.toNat = 0x85 || c.toNat = 0xA0 ||
  c.toNat = 0x1680 || (0x2000 ≤ c.toNat && c.toNat ≤ 0x200A) ||
  c.toNat = 0x2028 || c.toNat = 0x2029 || c.toNat = 0x202F ||
  c.toNat = 0x205F || c.toNat = 0x3000

/-- Rust str::trim: drop Unicode whitespace from both ends. -/
def rustTrim (s : String) : String :=
  String.mk (((s.toList.dropWhile rustIsWhitespace).reverse.dropWhile rustIsWhitespace).reverse)

/-- The journal seek targets used by the code (from the systemd crate's
JournalSeek). -/
inductive JournalSeek where
  | cursor (cursor : String)
  | tail

/-- initial_cursor from src/main.rs.  The oracle readResult is the
outcome of opening and reading the cursor position file; on success the
contents are trimmed and used as a cursor seek, a not-found error means
seek to the tail, and any other I/O error is returned (fatal at
startup, wrapped in context). -/
def initial_cursor (readResult : Except IoError String) : Except String JournalSeek :=
  match readResult.map rustTrim with
  | .ok cursor => .ok (.cursor cursor)
  | .error err =>
    if err.kind = .notFound then .ok .tail
    else .error ("Could not read cursor position: " ++ err.msg)

/-- The file-system operations persist_cursor can perform. -/
inductive FsOp where
  | create (path : String)
  | writeAll (path : String) (data : String)
  | rename (src dst : String)
deriving DecidableEq

/-- Whether an operation is a rename. -/
def FsOp.isRename : FsOp → Bool
  | .rename _ _ => true
  | _ => false

/-- persist_cursor from src/main.rs, as the sequence of file-system
operations it performs on the position file: File::create (create or
truncate in place) followed by writing the cursor string.  The position
file path is the POSITION_FILE static, passed as a parameter. -/
def persist_cursor_ops (positionFile : String) (cursor : String) : List FsOp :=
  [.create positionFile, .writeAll positionFile cursor]

/-- A file system: contents by path. -/
def FsState := String → Option String

/-- Effect of one operation on the file system: create truncates to
empty, writeAll appends to the current contents, rename moves. -/
def applyOp (fs : FsState) : FsOp → FsState
  | .create p => fun q => if q = p then some "" else fs q
  | .writeAll p d => fun q => if q = p then some ((fs p).getD "" ++ d) else fs q
  | .rename a b => fun q =>
      if q = b then fs a else if q = a then none else fs q

/-- Effect of a sequence of operations. -/
def applyOps (fs : FsState) (ops : List FsOp) : FsState :=
  ops.foldl applyOp fs

/-!  The receiver loop (src/main.rs, receive_next_record and
receiver_loop).

The journal is external; each inner-loop iteration is driven by an
oracle tick carrying the value of now.elapsed() at the loop head (in
milliseconds) and the outcomes of the next_record and await_next_record
calls.  The calls actually made are collected in a trace. -/

/-- A journald record: named string fields (BTreeMap in the source). -/
abbrev JournalRecord := List (String × String)

/-- BTreeMap::remove: the value for the key, if present, and the record
without that binding. -/
def record_remove (key : String) : JournalRecord → Option String × JournalRecord
  | [] => (none, [])
  | (k, v) :: rest =>
    if k = key then (some v, rest)
    else
      let (r, rest') := record_remove key rest
      (r, (k, v) :: rest')

/-- From JournalRecord for LogEntry in src/main.rs: payload from
MESSAGE, labels from _HOSTNAME and _SYSTEMD_UNIT (the unit defaulting
to "syslog"), timestamp from _SOURCE_REALTIME_TIMESTAMP when it parses,
severity from PRIORITY when it maps. -/
def log_entry_from_record (record : JournalRecord) : LogEntry :=
  let (message, record) := record_remove "MESSAGE" record
  let payload := message_to_payload message
  let (hostname, record) := record_remove "_HOSTNAME" record
  let (unit, record) := record_remove "_SYSTEMD_UNIT" record
  let (ts, record) := record_remove "_SOURCE_REALTIME_TIMESTAMP" record
  let timestamp := ts.bind parse_microseconds
  let (prio, _) := record_remove "PRIORITY" record
  let severity := prio.bind priority_to_severity
  { payload := payload
    timestamp := timestamp
    labels := Json.obj
      [("host", match hostname with | some h => Json.str h | none => Json.null),
       ("unit", Json.str (unit.getD "syslog"))]
    severity := severity }

/-- The journal calls made by the loop, with their arguments and
results. -/
inductive JournalEv where
  | nextRecord (result : Except String (Option JournalRecord))
  | awaitNextRecord (timeoutMs : Nat) (result : Except String (Option JournalRecord))

/-- Oracle for one receive_next_record call: the outcome of
next_record, and of await_next_record should it be reached. -/
structure ReadStep where
  next : Except String (Option JournalRecord)
  await : Except String (Option JournalRecord)

/-- receive_next_record from src/main.rs: first poll next_record; a
ready record (or an error) returns immediately without blocking, and
only an empty poll falls through to the blocking await_next_record with
the given timeout.  Returns the result and the trace of calls made. -/
def receive_next_record (timeout : Nat) (step : ReadStep) :
    Except String (Option JournalRecord) × List JournalEv :=
  match step.next with
  | .error e => (.error e, [.nextRecord (.error e)])
  | .ok (some r) => (.ok (some r), [.nextRecord (.ok (some r))])
  | .ok none => (step.await, [.nextRecord (.ok none), .awaitNextRecord timeout step.await])

/-- The 500 ms buffering window (the iteration constant in
receiver_loop). -/
def ITERATION_MS : Nat := 500

/-- Whether a trace event is either not a blocking wait, or a blocking
wait whose timeout budget is the fixed window constant; used to state
what timeout the inner loop passes. -/
def awaitBudgetIsWindow : JournalEv → Bool
  | .awaitNextRecord t _ => t == ITERATION_MS
  | _ => true

/-- Oracle for one inner-loop iteration: now.elapsed() at the loop head
and the journal read outcomes. -/
structure InnerTick where
  elapsedMs : Nat
  read : ReadStep

/-- The inner loop of receiver_loop: while the elapsed time does not
exceed the window, call receive_next_record with the window constant as
the timeout (the source passes the iteration constant, not the
remaining time); a received record is transformed and appended to the
buffer, and an error or empty result leaves the buffer unchanged.  The
tick list drives the iterations; the loop ends at the first tick whose
elapsed time exceeds the window (or when the oracle is exhausted). -/
def inner_loop : List InnerTick → List LogEntry → List JournalEv →
    List LogEntry × List JournalEv
  | [], buf, tr => (buf, tr)
  | tick :: rest, buf, tr =>
    if tick.elapsedMs > ITERATION_MS then (buf, tr)
    else
      let red := receive_next_record ITERATION_MS tick.read
      match red.1 with
      | .ok (some record) => inner_loop rest (buf ++ [log_entry_from_record record]) (tr ++ red.2)
      | _ => inner_loop rest buf (tr ++ red.2)

/-- Oracle for one outer iteration of receiver_loop: the inner-loop
ticks, the outcome of journal.cursor(), and the oracles for the flush
performed when the buffer is nonempty. -/
structure OuterTick where
  ticks : List InnerTick
  cursorResult : Except String String
  refresh : Except String Token
  http : Nat → HttpResult
  persist : Except String Unit
  flushNow : Nat

/-- One outer iteration of receiver_loop: run the inner loop; with an
empty buffer just continue; otherwise query the cursor (its error
propagates), move the buffer out and flush it.  The question-mark on
the flush call propagates a flush error out of receiver_loop, ending
the loop. -/
def receiver_step (env : Env) (token : Token) (buf : List LogEntry) (o : OuterTick) :
    Except String (Token × List LogEntry) :=
  let buf := (inner_loop o.ticks buf []).1
  if buf.isEmpty then .ok (token, buf)
  else
    match o.cursorResult with
    | .error e => .error e
    | .ok cursor =>
      let out := flush env o.refresh o.http o.persist o.flushNow token buf cursor
      match out.result with
      | .error e => .error e
      | .ok _ => .ok (out.token, [])

/-- receiver_loop from src/main.rs, run against a finite prefix of
outer-iteration oracles (the real loop is endless; main treats a
returned error as fatal and aborts).  Returns the loop outcome and the
number of outer iterations actually executed: an error from an
iteration ends the loop at once, so later oracles are never consulted. -/
def receiver_run (env : Env) : List OuterTick → Token → List LogEntry →
    Except String (Token × List LogEntry) × Nat
  | [], token, buf => (.ok (token, buf), 0)
  | o :: rest, token, buf =>
    match receiver_step env token buf o with
    | .error e => (.error e, 1)
    | .ok (token', buf') =>
      let out := receiver_run env rest token' buf'
      (out.1, out.2 + 1)

/-!  Helper lemmas. -/

/-- A decimal digit character contributes at most 9. -/
lemma digit_toNat_sub_le (c : Char) (h : c.isDigit = true) : c.toNat - 48 ≤ 9 := by
  simp [Char.isDigit] at h
  obtain ⟨h1, h2⟩ := h
  have : c.toNat ≤ 57 := by
    simpa [Char.le_def, UInt32.le_def, Char.toNat] using h2
  omega

/-- The decimal accumulator stays below the obvious power bound. -/
lemma foldl_digits_lt (l : List Char) (h : l.all Char.isDigit = true) :
    ∀ acc : Nat, l.foldl (fun a c => a * 10 + (c.toNat - 48)) acc < 10 ^ l.length * (acc + 1) := by
  induction l with
  | nil =>
    intro acc
    simp only [List.foldl_nil, List.length_nil, pow_zero, one_mul]
    omega
  | cons c cs ih =>
    intro acc
    simp only [List.all_cons, Bool.and_eq_true] at h
    have hd : c.toNat - 48 ≤ 9 := digit_toNat_sub_le c h.1
    have h2 := ih h.2 (acc * 10 + (c.toNat - 48))
    simp only [List.foldl_cons, List.length_cons]
    calc List.foldl (fun a c => a * 10 + (c.toNat - 48)) (acc * 10 + (c.toNat - 48)) cs
        < 10 ^ cs.length * (acc * 10 + (c.toNat - 48) + 1) := h2
      _ ≤ 10 ^ cs.length * ((acc + 1) * 10) := by
          apply Nat.mul_le_mul_left
          omega
      _ = 10 ^ (cs.length + 1) * (acc + 1) := by ring

/-- Value bound for an all-digit string. -/
lemma digitsVal_lt (l : List Char) (h : l.all Char.isDigit = true) :
    digitsVal l < 10 ^ l.length := by
  simpa [digitsVal] using foldl_digits_lt l h 0

/-- parseDigitsNat on an all-digit nonempty string gives its value. -/
lemma parseDigitsNat_of_digits (l : List Char) (hne : l ≠ []) (h : l.all Char.isDigit = true) :
    parseDigitsNat l = some (digitsVal l) := by
  simp [parseDigitsNat, hne, h]

/-- A successful parseDigitsNat result is the value of an all-digit
nonempty string. -/
lemma parseDigitsNat_bound (l : List Char) (n : Nat) (h : parseDigitsNat l = some n) :
    n < 10 ^ l.length := by
  by_cases he : l.isEmpty
  · simp [parseDigitsNat, he] at h
  · by_cases hd : l.all Char.isDigit
    · simp [parseDigitsNat, he, hd] at h
      exact h ▸ digitsVal_lt l hd
    · simp [parseDigitsNat, he, hd] at h

/-- Rust i64 parsing of an all-digit string of at most ten characters
succeeds with the decimal value (no sign branch is taken, and the range
check cannot fire). -/
lemma rust_parse_i64_digits (l : List Char) (hne : l ≠ []) (h : l.all Char.isDigit = true)
    (hlen : l.length ≤ 10) : rust_parse_i64 l = some ((digitsVal l : Int)) := by
  have hval : digitsVal l < 10 ^ 10 :=
    lt_of_lt_of_le (digitsVal_lt l h) (Nat.pow_le_pow_right (by norm_num) hlen)
  have hrange : digitsVal l ≤ 2 ^ 63 - 1 := by
    have : (10 : Nat) ^ 10 ≤ 2 ^ 63 - 1 := by norm_num
    omega
  unfold rust_parse_i64
  split
  · simp only [List.all_cons, Bool.and_eq_true] at h
    exact absurd h.1 (by decide)
  · simp only [List.all_cons, Bool.and_eq_true] at h
    exact absurd h.1 (by decide)
  · rw [parseDigitsNat_of_digits l hne h]
    show (if digitsVal l ≤ 2 ^ 63 - 1 then some ((digitsVal l : Nat) : Int) else none)
        = some ((digitsVal l : Int))
    rw [if_pos hrange]

/-- Rust u32 parsing of an all-digit string of at most six characters
succeeds with the decimal value. -/
lemma rust_parse_u32_digits (l : List Char) (hne : l ≠ []) (h : l.all Char.isDigit = true)
    (hlen : l.length ≤ 6) : rust_parse_u32 l = some (digitsVal l) := by
  have hval : digitsVal l < 10 ^ 6 :=
    lt_of_lt_of_le (digitsVal_lt l h) (Nat.pow_le_pow_right (by norm_num) hlen)
  have hrange : digitsVal l ≤ 2 ^ 32 - 1 := by
    have : (10 : Nat) ^ 6 ≤ 2 ^ 32 - 1 := by norm_num
    omega
  unfold rust_parse_u32
  split
  · simp only [List.all_cons, Bool.and_eq_true] at h
    exact absurd h.1 (by decide)
  · rw [parseDigitsNat_of_digits l hne h]
    show (if digitsVal l ≤ 2 ^ 32 - 1 then some (digitsVal l) else none) = some (digitsVal l)
    rw [if_pos hrange]

/-- Any successful Rust i64 parse is bounded by the digit count. -/
lemma rust_parse_i64_bound (l : List Char) (v : Int) (h : rust_parse_i64 l = some v) :
    v.natAbs < 10 ^ l.length := by
  unfold rust_parse_i64 at h
  split at h
  · rename_i rest
    cases hp : parseDigitsNat rest with
    | none =>
      rw [hp] at h
      exact Option.noConfusion h
    | some n =>
      rw [hp] at h
      have h' : (if n ≤ 2 ^ 63 - 1 then some ((n : Nat) : Int) else none) = some v := h
      by_cases hr : n ≤ 2 ^ 63 - 1
      · rw [if_pos hr] at h'
        have hv : ((n : Nat) : Int) = v := Option.some.inj h'
        have hb := parseDigitsNat_bound rest n hp
        have hva : v.natAbs = n := by rw [← hv]; simp
        rw [hva, List.length_cons]
        exact lt_of_lt_of_le hb (Nat.pow_le_pow_right (by norm_num) (Nat.le_succ _))
      · rw [if_neg hr] at h'
        exact Option.noConfusion h'
  · rename_i rest
    cases hp : parseDigitsNat rest with
    | none =>
      rw [hp] at h
      exact Option.noConfusion h
    | some n =>
      rw [hp] at h
      have h' : (if n ≤ 2 ^ 63 then some (-((n : Nat) : Int)) else none) = some v := h
      by_cases hr : n ≤ 2 ^ 63
      · rw [if_pos hr] at h'
        have hv : -((n : Nat) : Int) = v := Option.some.inj h'
        have hb := parseDigitsNat_bound rest n hp
        have hva : v.natAbs = n := by rw [← hv]; simp
        rw [hva, List.length_cons]
        exact lt_of_lt_of_le hb (Nat.pow_le_pow_right (by norm_num) (Nat.le_succ _))
      · rw [if_neg hr] at h'
        exact Option.noConfusion h'
  · cases hp : parseDigitsNat l with
    | none =>
      rw [hp] at h
      exact Option.noConfusion h
    | some n =>
      rw [hp] at h
      have h' : (if n ≤ 2 ^ 63 - 1 then some ((n : Nat) : Int) else none) = some v := h
      by_cases hr : n ≤ 2 ^ 63 - 1
      · rw [if_pos hr] at h'
        have hv : ((n : Nat) : Int) = v := Option.some.inj h'
        have hb := parseDigitsNat_bound l n hp
        have hva : v.natAbs = n := by rw [← hv]; simp
        rw [hva]
        exact hb
      · rw [if_neg hr] at h'
        exact Option.noConfusion h'

/-- Any successful Rust u32 parse is bounded by the digit count. -/
lemma rust_parse_u32_bound (l : List Char) (v : Nat) (h : rust_parse_u32 l = some v) :
    v < 10 ^ l.length := by
  unfold rust_parse_u32 at h
  split at h
  · rename_i rest
    cases hp : parseDigitsNat rest with
    | none =>
      rw [hp] at h
      exact Option.noConfusion h
    | some n =>
      rw [hp] at h
      have h' : (if n ≤ 2 ^ 32 - 1 then some n else none) = some v := h
      by_cases hr : n ≤ 2 ^ 32 - 1
      · rw [if_pos hr] at h'
        have hv : n = v := Option.some.inj h'
        have hb := parseDigitsNat_bound rest n hp
        rw [← hv, List.length_cons]
        exact lt_of_lt_of_le hb (Nat.pow_le_pow_right (by norm_num) (Nat.le_succ _))
      · rw [if_neg hr] at h'
        exact Option.noConfusion h'
  · cases hp : parseDigitsNat l with
    | none =>
      rw [hp] at h
      exact Option.noConfusion h
    | some n =>
      rw [hp] at h
      have h' : (if n ≤ 2 ^ 32 - 1 then some n else none) = some v := h
      by_cases hr : n ≤ 2 ^ 32 - 1
      · rw [if_pos hr] at h'
        have hv : n = v := Option.some.inj h'
        rw [← hv]
        exact parseDigitsNat_bound l n hp
      · rw [if_neg hr] at h'
        exact Option.noConfusion h'

/-!  Claim C1. -/

/-- C1: message_to_payload yields the text payload "empty log entry"
when MESSAGE is absent; the structured payload of the parsed value when
MESSAGE parses as a JSON object; and the original MESSAGE text in every
other case (parse failures and non-object JSON values alike), so a
structured payload always carries an object. -/
theorem message_to_payload_spec :
    (message_to_payload none = .textPayload "empty log entry")
  ∧ (∀ s v, json_from_str s = some v → v.isObject = true →
      message_to_payload (some s) = .jsonPayload v)
  ∧ (∀ s v, json_from_str s = some v → v.isObject = false →
      message_to_payload (some s) = .textPayload s)
  ∧ (∀ s, json_from_str s = none → message_to_payload (some s) = .textPayload s)
  ∧ (∀ m v, message_to_payload m = .jsonPayload v → v.isObject = true) := by
  refine ⟨rfl, ?_, ?_, ?_, ?_⟩
  · intro s v h hobj
    simp [message_to_payload, h, hobj]
  · intro s v h hobj
    simp [message_to_payload, h, hobj]
  · intro s h
    simp [message_to_payload, h]
  · intro m v h
    match m with
    | none => exact Payload.noConfusion h
    | some s =>
      have h' : (match json_from_str s with
          | some json_payload =>
            if json_payload.isObject then Payload.jsonPayload json_payload
            else Payload.textPayload s
          | none => Payload.textPayload s) = Payload.jsonPayload v := h
      cases hj : json_from_str s with
      | none =>
        rw [hj] at h'
        exact Payload.noConfusion h'
      | some w =>
        rw [hj] at h'
        have h'' : (if w.isObject then Payload.jsonPayload w else Payload.textPayload s)
            = Payload.jsonPayload v := h'
        by_cases hw : w.isObject
        · rw [if_pos hw] at h''
          cases h''
          exact hw
        · rw [if_neg hw] at h''
          exact Payload.noConfusion h''

/-- C1 witness: concrete instances — a JSON object becomes a
structured payload, a JSON array and a non-JSON string stay text. -/
theorem message_to_payload_spec_witness :
    message_to_payload (some "\x7b\"k\":1\x7d") = .jsonPayload (Json.obj [("k", Json.num "1")])
  ∧ message_to_payload (some "[1,2]") = .textPayload "[1,2]"
  ∧ message_to_payload (some "oops") = .textPayload "oops" :=
  ⟨message_to_payload_spec.2.1 "\x7b\"k\":1\x7d" (Json.obj [("k", Json.num "1")]) rfl rfl,
   message_to_payload_spec.2.2.1 "[1,2]" (Json.arr [Json.num "1", Json.num "2"]) rfl rfl,
   message_to_payload_spec.2.2.2.1 "oops" rfl⟩

/-!  Claim C2. -/

/-- C2 counterexample: a 16-character input that is not all digits (it
carries a leading minus sign) on which parse_microseconds nevertheless
returns Some, because Rust str::parse accepts a leading sign. -/
theorem parse_microseconds_counterexample :
    parse_microseconds "-123456789123456" = some ((-123456789 : Int), 123456000)
  ∧ ("-123456789123456".toList.all Char.isDigit) = false := by
  constructor
  · rfl
  · decide

/-- C2 (amended): parse_microseconds returns None on any input whose
length is not 16 (in particular on every 15-digit input); on a
16-character all-digit input it returns the UTC instant whose seconds
are the decimal value of the first 10 characters and whose
nanosecond-of-second count is 1000 times the decimal value of the last
6 characters; and it returns Some exactly when the input has length 16,
the first 10 characters parse under Rust i64 semantics (optional
leading sign allowed) and the last 6 characters parse under Rust u32
semantics (optional leading plus allowed) — not only on all-digit
inputs. -/
theorem parse_microseconds_spec :
    (∀ s : String, s.length ≠ 16 → parse_microseconds s = none)
  ∧ (∀ s : String, s.length = 16 → s.toList.all Char.isDigit = true →
      parse_microseconds s
        = some ((digitsVal (s.toList.take 10) : Int), digitsVal (s.toList.drop 10) * 1000))
  ∧ (∀ s : String, (parse_microseconds s).isSome = true ↔
      (s.length = 16 ∧ (rust_parse_i64 (s.toList.take 10)).isSome = true
        ∧ (rust_parse_u32 (s.toList.drop 10)).isSome = true)) := by
  have hlist : ∀ s : String, s.length = s.toList.length := fun s => rfl
  refine ⟨?_, ?_, ?_⟩
  · intro s hs
    simp [parse_microseconds, hs]
  · intro s hs hd
    have hlen : s.toList.length = 16 := by rw [← hlist]; exact hs
    have htake : (s.toList.take 10).length = 10 := by
      rw [List.length_take, hlen]
      omega
    have hdrop : (s.toList.drop 10).length = 6 := by
      rw [List.length_drop, hlen]
    have hdall : ∀ c ∈ s.toList, c.isDigit = true := List.all_eq_true.1 hd
    have htaked : (s.toList.take 10).all Char.isDigit = true :=
      List.all_eq_true.2 fun c hc => hdall c (List.take_subset _ _ hc)
    have hdropd : (s.toList.drop 10).all Char.isDigit = true :=
      List.all_eq_true.2 fun c hc => hdall c (List.drop_subset _ _ hc)
    have htakene : s.toList.take 10 ≠ [] := by
      intro hnil
      rw [hnil] at htake
      exact absurd htake (by decide)
    have hdropne : s.toList.drop 10 ≠ [] := by
      intro hnil
      rw [hnil] at hdrop
      exact absurd hdrop (by decide)
    have h1 := rust_parse_i64_digits _ htakene htaked (le_of_eq htake)
    have h2 := rust_parse_u32_digits _ hdropne hdropd (le_of_eq hdrop)
    have hsecs : digitsVal (s.toList.take 10) < 10000000000 := by
      have := digitsVal_lt _ htaked
      rw [htake] at this
      norm_num at this
      exact this
    have hmic : digitsVal (s.toList.drop 10) < 1000000 := by
      have := digitsVal_lt _ hdropd
      rw [hdrop] at this
      norm_num at this
      exact this
    have hcond : CHRONO_MIN_TS ≤ ((digitsVal (s.toList.take 10) : Nat) : Int)
        ∧ ((digitsVal (s.toList.take 10) : Nat) : Int) ≤ CHRONO_MAX_TS
        ∧ digitsVal (s.toList.drop 10) * 1000 < 2000000000 := by
      refine ⟨?_, ?_, ?_⟩
      · unfold CHRONO_MIN_TS
        omega
      · unfold CHRONO_MAX_TS
        omega
      · omega
    unfold parse_microseconds
    rw [if_neg (by simp [hs]), h1, h2]
    show utc_timestamp_opt ((digitsVal (s.toList.take 10) : Nat) : Int)
        (digitsVal (s.toList.drop 10) * 1000)
      = some (((digitsVal (s.toList.take 10) : Nat) : Int), digitsVal (s.toList.drop 10) * 1000)
    unfold utc_timestamp_opt
    rw [if_pos hcond]
  · intro s
    constructor
    · intro hsome
      unfold parse_microseconds at hsome
      by_cases hs : s.length = 16
      · rw [if_neg (by simp [hs])] at hsome
        cases h1 : rust_parse_i64 (s.toList.take 10) with
        | none =>
          cases h2 : rust_parse_u32 (s.toList.drop 10) with
          | none =>
            rw [h1, h2] at hsome
            have hnone : (none : Option UtcInstant).isSome = true := hsome
            exact absurd hnone (by decide)
          | some b =>
            rw [h1, h2] at hsome
            have hnone : (none : Option UtcInstant).isSome = true := hsome
            exact absurd hnone (by decide)
        | some a =>
          cases h2 : rust_parse_u32 (s.toList.drop 10) with
          | none =>
            rw [h1, h2] at hsome
            have hnone : (none : Option UtcInstant).isSome = true := hsome
            exact absurd hnone (by decide)
          | some b =>
            exact ⟨hs, rfl, rfl⟩
      · rw [if_pos hs] at hsome
        exact absurd hsome (by decide)
    · rintro ⟨hs, hi, hu⟩
      obtain ⟨a, ha⟩ := Option.isSome_iff_exists.1 hi
      obtain ⟨b, hb⟩ := Option.isSome_iff_exists.1 hu
      have hlen : s.toList.length = 16 := by rw [← hlist]; exact hs
      have htake : (s.toList.take 10).length = 10 := by
        rw [List.length_take, hlen]
        omega
      have hdrop : (s.toList.drop 10).length = 6 := by
        rw [List.length_drop, hlen]
      have hab : a.natAbs < 10000000000 := by
        have := rust_parse_i64_bound _ _ ha
        rw [htake] at this
        norm_num at this
        exact this
      have hbb : b < 1000000 := by
        have := rust_parse_u32_bound _ _ hb
        rw [hdrop] at this
        norm_num at this
        exact this
      have hcond : CHRONO_MIN_TS ≤ a ∧ a ≤ CHRONO_MAX_TS ∧ b * 1000 < 2000000000 := by
        refine ⟨?_, ?_, ?_⟩
        · unfold CHRONO_MIN_TS
          omega
        · unfold CHRONO_MAX_TS
          omega
        · omega
      unfold parse_microseconds
      rw [if_neg (by simp [hs]), ha, hb]
      show (utc_timestamp_opt a (b * 1000)).isSome = true
      unfold utc_timestamp_opt
      rw [if_pos hcond]
      rfl

/-- C2 witness: the documented example timestamp, and a 15-digit input
yielding None. -/
theorem parse_microseconds_spec_witness :
    parse_microseconds "1529175149291187" = some ((1529175149 : Int), 291187000)
  ∧ parse_microseconds "152917514929118" = none := by
  constructor
  · have h := parse_microseconds_spec.2.1 "1529175149291187" (by decide) (by decide)
    rw [h]
    decide
  · exact parse_microseconds_spec.1 "152917514929118" (by decide)

/-!  Chunking and flush lemmas. -/

/-- Joining the fueled chunks restores the list (enough fuel, positive
chunk size). -/
lemma chunksFuel_join (c : Nat) (hc : 0 < c) :
    ∀ fuel (l : List α), l.length ≤ fuel → (chunksFuel c fuel l).flatten = l := by
  intro fuel
  induction fuel with
  | zero =>
    intro l hl
    have : l = [] := List.eq_nil_of_length_eq_zero (Nat.le_zero.1 hl)
    subst this
    rfl
  | succ n ih =>
    intro l hl
    cases l with
    | nil => rfl
    | cons x xs =>
      show ((x :: xs).take c :: chunksFuel c n ((x :: xs).drop c)).flatten = x :: xs
      rw [List.flatten_cons, ih]
      · exact List.take_append_drop c (x :: xs)
      · rw [List.length_drop]
        simp only [List.length_cons] at hl ⊢
        omega

/-- Every fueled chunk has at most c elements (enough fuel, positive
chunk size). -/
lemma chunksFuel_mem_le (c : Nat) (hc : 0 < c) :
    ∀ fuel (l : List α) ch, l.length ≤ fuel → ch ∈ chunksFuel c fuel l → ch.length ≤ c := by
  intro fuel
  induction fuel with
  | zero =>
    intro l ch hl hm
    have : l = [] := List.eq_nil_of_length_eq_zero (Nat.le_zero.1 hl)
    subst this
    simp [chunksFuel] at hm
  | succ n ih =>
    intro l ch hl hm
    cases l with
    | nil => simp [chunksFuel] at hm
    | cons x xs =>
      have hm' : ch ∈ (x :: xs).take c :: chunksFuel c n ((x :: xs).drop c) := hm
      rcases List.mem_cons.1 hm' with h | h
      · subst h
        rw [List.length_take]
        omega
      · refine ih ((x :: xs).drop c) ch ?_ h
        rw [List.length_drop]
        simp only [List.length_cons] at hl ⊢
        omega

/-- Joining the chunks of a batch restores the batch. -/
lemma chunksOf_flatten (c : Nat) (hc : 0 < c) (l : List α) : (chunksOf c l).flatten = l :=
  chunksFuel_join c hc l.length l le_rfl

/-- No chunk of a batch exceeds the chunk size. -/
lemma chunksOf_mem_le (c : Nat) (hc : 0 < c) (l : List α) (ch : List α)
    (h : ch ∈ chunksOf c l) : ch.length ≤ c :=
  chunksFuel_mem_le c hc l.length l ch le_rfl h

/-- The POSTs performed by the chunk loop: one per chunk, in order,
all carrying the given token. -/
lemma post_chunks_fst (tok : Token) (env : Env) (http : Nat → HttpResult) :
    ∀ (chunks : List (List LogEntry)) (i : Nat),
      (post_chunks tok env http i chunks).1
        = chunks.map (fun ch => ⟨tok.token, prepare_request env ch⟩) := by
  intro chunks
  induction chunks with
  | nil => intro i; rfl
  | cons ch rest ih =>
    intro i
    show (⟨tok.token, prepare_request env ch⟩ :: (post_chunks tok env http (i + 1) rest).1,
        match write_entries (prepare_request env ch) (http i) with
        | .error e =>
          ("Failed to write " ++ toString ch.length ++ " entries: " ++ e)
            :: (post_chunks tok env http (i + 1) rest).2
        | .ok _ => (post_chunks tok env http (i + 1) rest).2).1
      = _
    rw [List.map_cons, ← ih (i + 1)]

/-- The error lines logged by the chunk loop: exactly one per failed
chunk, in order. -/
lemma post_chunks_snd (tok : Token) (env : Env) (http : Nat → HttpResult) :
    ∀ (chunks : List (List LogEntry)) (i : Nat),
      (post_chunks tok env http i chunks).2
        = (chunks.enumFrom i).filterMap (write_log_line env http) := by
  intro chunks
  induction chunks with
  | nil => intro i; rfl
  | cons ch rest ih =>
    intro i
    show (match write_entries (prepare_request env ch) (http i) with
        | .error e =>
          ("Failed to write " ++ toString ch.length ++ " entries: " ++ e)
            :: (post_chunks tok env http (i + 1) rest).2
        | .ok _ => (post_chunks tok env http (i + 1) rest).2)
      = _
    rw [List.enumFrom_cons, List.filterMap_cons]
    cases hw : write_entries (prepare_request env ch) (http i) with
    | error e =>
      have hl : write_log_line env http (i, ch)
          = some ("Failed to write " ++ toString ch.length ++ " entries: " ++ e) := by
        show (match write_entries (prepare_request env ch) (http i) with
            | Except.error e =>
              some ("Failed to write " ++ toString ch.length ++ " entries: " ++ e)
            | Except.ok _ => none) = _
        rw [hw]
      simp only [hl, ih (i + 1)]
    | ok u =>
      have hl : write_log_line env http (i, ch) = none := by
        show (match write_entries (prepare_request env ch) (http i) with
            | Except.error e =>
              some ("Failed to write " ++ toString ch.length ++ " entries: " ++ e)
            | Except.ok _ => none) = _
        rw [hw]
      simp only [hl, ih (i + 1)]

/-- With a fresh token, flush reduces to posting every chunk and then
persisting. -/
lemma flush_fresh (env : Env) (refresh : Except String Token) (http : Nat → HttpResult)
    (persist : Except String Unit) (now : Nat) (token : Token)
    (entries : List LogEntry) (cursor : String)
    (hfresh : token.is_expired now = false) :
    flush env refresh http persist now token entries cursor
      = match persist with
        | .ok _ => ⟨token, (post_chunks token env http 0 (chunksOf 750 entries)).1,
            (post_chunks token env http 0 (chunksOf 750 entries)).2, some cursor, .ok ()⟩
        | .error e => ⟨token, (post_chunks token env http 0 (chunksOf 750 entries)).1,
            (post_chunks token env http 0 (chunksOf 750 entries)).2, none, .error e⟩ := by
  have htok : (if token.is_expired now then refresh else Except.ok token)
      = Except.ok token := by
    rw [hfresh]
    rfl
  unfold flush
  rw [htok]

/-- With an expired token and a successful refresh, flush swaps the
fresh token in and then posts every chunk with it. -/
lemma flush_refreshed (env : Env) (refresh : Except String Token) (http : Nat → HttpResult)
    (persist : Except String Unit) (now : Nat) (token t' : Token)
    (entries : List LogEntry) (cursor : String)
    (hexp : token.is_expired now = true) (href : refresh = .ok t') :
    flush env refresh http persist now token entries cursor
      = match persist with
        | .ok _ => ⟨t', (post_chunks t' env http 0 (chunksOf 750 entries)).1,
            (post_chunks t' env http 0 (chunksOf 750 entries)).2, some cursor, .ok ()⟩
        | .error e => ⟨t', (post_chunks t' env http 0 (chunksOf 750 entries)).1,
            (post_chunks t' env http 0 (chunksOf 750 entries)).2, none, .error e⟩ := by
  have htok : (if token.is_expired now then refresh else Except.ok token)
      = Except.ok t' := by
    rw [hexp]
    exact href
  unfold flush
  rw [htok]

/-!  Claim C3. -/

/-- C3: with a fresh token, flush posts every chunk of the batch in
order no matter what the HTTP outcomes are (a non-2xx response or
transport error on one chunk only adds an error log line and does not
stop the remaining chunks), and after all chunks have been attempted it
calls persist_cursor with the cursor — flush's return value is the
persist outcome, and a successful persist records the cursor even when
every chunk failed. -/
theorem flush_attempts_all_chunks_and_persists :
    ∀ (env : Env) (refresh : Except String Token) (http : Nat → HttpResult)
      (persist : Except String Unit) (now : Nat) (token : Token)
      (entries : List LogEntry) (cursor : String),
      token.is_expired now = false →
      (flush env refresh http persist now token entries cursor).posted
          = (chunksOf 750 entries).map (fun ch => ⟨token.token, prepare_request env ch⟩)
      ∧ (flush env refresh http persist now token entries cursor).logged_errors
          = ((chunksOf 750 entries).enumFrom 0).filterMap (write_log_line env http)
      ∧ (flush env refresh http persist now token entries cursor).result = persist
      ∧ (persist = .ok () →
          (flush env refresh http persist now token entries cursor).persisted = some cursor) := by
  intro env refresh http persist now token entries cursor hfresh
  rw [flush_fresh env refresh http persist now token entries cursor hfresh]
  cases persist with
  | ok u =>
    exact ⟨post_chunks_fst token env http _ 0, post_chunks_snd token env http _ 0,
      rfl, fun _ => rfl⟩
  | error e =>
    exact ⟨post_chunks_fst token env http _ 0, post_chunks_snd token env http _ 0,
      rfl, fun h => Except.noConfusion h⟩

/-- C3 witness: one entry, the POST fails with a 500, the cursor is
persisted anyway and the failure is logged. -/
theorem flush_attempts_all_chunks_and_persists_witness :
    ((Token.mk "tok" 0 10).is_expired 0 = false)
  ∧ ((flush ⟨"p", "l", Json.null⟩ (Except.error "unused")
        (fun _ => HttpResult.response 500 (some "boom")) (Except.ok ()) 0
        (Token.mk "tok" 0 10) [⟨Json.null, none, Payload.textPayload "x", none⟩] "c1").posted
      = (chunksOf 750 [⟨Json.null, none, Payload.textPayload "x", none⟩]).map
          (fun ch => ⟨(Token.mk "tok" 0 10).token, prepare_request ⟨"p", "l", Json.null⟩ ch⟩)
    ∧ (flush ⟨"p", "l", Json.null⟩ (Except.error "unused")
        (fun _ => HttpResult.response 500 (some "boom")) (Except.ok ()) 0
        (Token.mk "tok" 0 10) [⟨Json.null, none, Payload.textPayload "x", none⟩] "c1").logged_errors
      = ((chunksOf 750 [⟨Json.null, none, Payload.textPayload "x", none⟩]).enumFrom 0).filterMap
          (write_log_line ⟨"p", "l", Json.null⟩ (fun _ => HttpResult.response 500 (some "boom")))
    ∧ (flush ⟨"p", "l", Json.null⟩ (Except.error "unused")
        (fun _ => HttpResult.response 500 (some "boom")) (Except.ok ()) 0
        (Token.mk "tok" 0 10) [⟨Json.null, none, Payload.textPayload "x", none⟩] "c1").result
      = Except.ok ()
    ∧ ((Except.ok () : Except String Unit) = Except.ok () →
        (flush ⟨"p", "l", Json.null⟩ (Except.error "unused")
          (fun _ => HttpResult.response 500 (some "boom")) (Except.ok ()) 0
          (Token.mk "tok" 0 10) [⟨Json.null, none, Payload.textPayload "x", none⟩] "c1").persisted
        = some "c1")) :=
  ⟨by decide,
   flush_attempts_all_chunks_and_persists ⟨"p", "l", Json.null⟩ (Except.error "unused")
     (fun _ => HttpResult.response 500 (some "boom")) (Except.ok ()) 0
     (Token.mk "tok" 0 10) [⟨Json.null, none, Payload.textPayload "x", none⟩] "c1" (by decide)⟩

/-!  Claim C4. -/

/-- C4: the chunking flush performs is exact — concatenating the
entries fields of the produced requests in order restores the batch
(contiguous, order-preserving, nothing duplicated or dropped), and no
produced request carries more than 750 entries. -/
theorem flush_chunking_exact :
    ∀ (env : Env) (refresh : Except String Token) (http : Nat → HttpResult)
      (persist : Except String Unit) (now : Nat) (token : Token)
      (entries : List LogEntry) (cursor : String),
      token.is_expired now = false →
      ((flush env refresh http persist now token entries cursor).posted.map
          (fun p => p.request.entries)).flatten = entries
      ∧ ∀ p ∈ (flush env refresh http persist now token entries cursor).posted,
          p.request.entries.length ≤ 750 := by
  intro env refresh http persist now token entries cursor hfresh
  have hmap : ∀ (chunks : List (List LogEntry)),
      ((chunks.map (fun ch => (⟨token.token, prepare_request env ch⟩ : PostEvent))).map
        (fun p => p.request.entries)) = chunks := by
    intro chunks
    induction chunks with
    | nil => rfl
    | cons a l ih =>
      simp only [List.map_cons]
      rw [ih]
      rfl
  have hposted : (flush env refresh http persist now token entries cursor).posted
      = (chunksOf 750 entries).map (fun ch => ⟨token.token, prepare_request env ch⟩) := by
    rw [flush_fresh env refresh http persist now token entries cursor hfresh]
    cases persist with
    | ok u => exact post_chunks_fst token env http _ 0
    | error e => exact post_chunks_fst token env http _ 0
  constructor
  · rw [hposted, hmap]
    exact chunksOf_flatten 750 (by norm_num) entries
  · intro p hp
    rw [hposted] at hp
    obtain ⟨ch, hch, hpe⟩ := List.mem_map.1 hp
    have : p.request.entries = ch := by
      rw [← hpe]
      rfl
    rw [this]
    exact chunksOf_mem_le 750 (by norm_num) entries ch hch

/-- C4 witness: a two-entry batch with failing uploads still chunks
exactly. -/
theorem flush_chunking_exact_witness :
    ((Token.mk "t" 0 99).is_expired 0 = false)
  ∧ (((flush ⟨"pr", "lg", Json.null⟩ (Except.error "unused")
        (fun _ => HttpResult.transportError "down") (Except.ok ()) 0 (Token.mk "t" 0 99)
        [⟨Json.null, none, Payload.textPayload "a", none⟩,
         ⟨Json.null, none, Payload.textPayload "b", some 200⟩] "cc").posted.map
          (fun p => p.request.entries)).flatten
      = [⟨Json.null, none, Payload.textPayload "a", none⟩,
         ⟨Json.null, none, Payload.textPayload "b", some 200⟩]
    ∧ ∀ p ∈ (flush ⟨"pr", "lg", Json.null⟩ (Except.error "unused")
        (fun _ => HttpResult.transportError "down") (Except.ok ()) 0 (Token.mk "t" 0 99)
        [⟨Json.null, none, Payload.textPayload "a", none⟩,
         ⟨Json.null, none, Payload.textPayload "b", some 200⟩] "cc").posted,
        p.request.entries.length ≤ 750) :=
  ⟨by decide,
   flush_chunking_exact ⟨"pr", "lg", Json.null⟩ (Except.error "unused")
     (fun _ => HttpResult.transportError "down") (Except.ok ()) 0 (Token.mk "t" 0 99)
     [⟨Json.null, none, Payload.textPayload "a", none⟩,
      ⟨Json.null, none, Payload.textPayload "b", some 200⟩] "cc" (by decide)⟩

/-!  Claim C6. -/

/-- C6: token freshness is checked at the start of every flush — a
token counts as expired exactly when the monotonic time elapsed since
fetched_at strictly exceeds its stored lifetime; the lifetime is
expires_in divided by two (in seconds) for metadata tokens and a fixed
3000 seconds for signed JWTs; and an expired token is replaced by the
freshly obtained one before any chunk is posted (every POST of that
flush carries the new bearer), while a fresh token is kept. -/
theorem token_freshness_spec :
    (∀ (t : Token) (now : Nat), t.is_expired now = true ↔ now - t.fetched_at > t.expires)
  ∧ (∀ (resp : TokenResponse) (now : Nat),
      get_metadata_token resp now
        = ⟨resp.access_token, now, resp.expires_in / 2 * NANOS_PER_SEC⟩)
  ∧ (∀ (jwt : String) (now : Nat),
      sign_service_account_token jwt now = ⟨jwt, now, 3000 * NANOS_PER_SEC⟩)
  ∧ (∀ (env : Env) (refresh : Except String Token) (http : Nat → HttpResult)
      (persist : Except String Unit) (now : Nat) (token t' : Token)
      (entries : List LogEntry) (cursor : String),
      token.is_expired now = true → refresh = .ok t' →
      (flush env refresh http persist now token entries cursor).token = t'
      ∧ ∀ p ∈ (flush env refresh http persist now token entries cursor).posted,
          p.bearer = t'.token)
  ∧ (∀ (env : Env) (refresh : Except String Token) (http : Nat → HttpResult)
      (persist : Except String Unit) (now : Nat) (token : Token)
      (entries : List LogEntry) (cursor : String),
      token.is_expired now = false →
      (flush env refresh http persist now token entries cursor).token = token
      ∧ ∀ p ∈ (flush env refresh http persist now token entries cursor).posted,
          p.bearer = token.token) := by
  refine ⟨?_, fun resp now => rfl, fun jwt now => rfl, ?_, ?_⟩
  · intro t now
    simp [Token.is_expired]
  · intro env refresh http persist now token t' entries cursor hexp href
    rw [flush_refreshed env refresh http persist now token t' entries cursor hexp href]
    cases persist with
    | ok u =>
      refine ⟨rfl, ?_⟩
      intro p hp
      rw [post_chunks_fst] at hp
      obtain ⟨ch, hch, hpe⟩ := List.mem_map.1 hp
      rw [← hpe]
    | error e =>
      refine ⟨rfl, ?_⟩
      intro p hp
      rw [post_chunks_fst] at hp
      obtain ⟨ch, hch, hpe⟩ := List.mem_map.1 hp
      rw [← hpe]
  · intro env refresh http persist now token entries cursor hfresh
    rw [flush_fresh env refresh http persist now token entries cursor hfresh]
    cases persist with
    | ok u =>
      refine ⟨rfl, ?_⟩
      intro p hp
      rw [post_chunks_fst] at hp
      obtain ⟨ch, hch, hpe⟩ := List.mem_map.1 hp
      rw [← hpe]
    | error e =>
      refine ⟨rfl, ?_⟩
      intro p hp
      rw [post_chunks_fst] at hp
      obtain ⟨ch, hch, hpe⟩ := List.mem_map.1 hp
      rw [← hpe]

/-- C6 witness: an expired token (6 ns elapsed, 5 ns lifetime) is
swapped for the refreshed one, and every POST carries the new
bearer. -/
theorem token_freshness_spec_witness :
    ((Token.mk "old" 0 5).is_expired 6 = true ↔ 6 - 0 > 5)
  ∧ ((flush ⟨"p", "l", Json.null⟩ (Except.ok (Token.mk "new" 6 9))
        (fun _ => HttpResult.response 200 none) (Except.ok ()) 6 (Token.mk "old" 0 5)
        [⟨Json.null, none, Payload.textPayload "m", none⟩] "cur").token = Token.mk "new" 6 9
    ∧ ∀ p ∈ (flush ⟨"p", "l", Json.null⟩ (Except.ok (Token.mk "new" 6 9))
        (fun _ => HttpResult.response 200 none) (Except.ok ()) 6 (Token.mk "old" 0 5)
        [⟨Json.null, none, Payload.textPayload "m", none⟩] "cur").posted,
        p.bearer = (Token.mk "new" 6 9).token) :=
  ⟨token_freshness_spec.1 (Token.mk "old" 0 5) 6,
   token_freshness_spec.2.2.2.1 ⟨"p", "l", Json.null⟩ (Except.ok (Token.mk "new" 6 9))
     (fun _ => HttpResult.response 200 none) (Except.ok ()) 6 (Token.mk "old" 0 5)
     (Token.mk "new" 6 9) [⟨Json.null, none, Payload.textPayload "m", none⟩] "cur"
     (by decide) rfl⟩

/-!  Claim C10. -/

/-- C10: when the token is expired at the start of flush and obtaining
a replacement fails, flush returns exactly that error having posted no
chunk, logged nothing, and written no cursor — the upload stream and
the persisted state are untouched on this exit path. -/
theorem flush_token_failure_atomic :
    ∀ (env : Env) (refresh : Except String Token) (http : Nat → HttpResult)
      (persist : Except String Unit) (now : Nat) (token : Token)
      (entries : List LogEntry) (cursor : String) (e : String),
      token.is_expired now = true → refresh = .error e →
      flush env refresh http persist now token entries cursor
        = ⟨token, [], [], none, .error e⟩ := by
  intro env refresh http persist now token entries cursor e hexp href
  have htok : (if token.is_expired now then refresh else Except.ok token)
      = Except.error e := by
    rw [hexp]
    exact href
  unfold flush
  rw [htok]

/-- C10 witness: a concrete failing refresh leaves no posts, no logs
and no cursor write. -/
theorem flush_token_failure_atomic_witness :
    ((Token.mk "old" 0 5).is_expired 6 = true)
  ∧ flush ⟨"p", "l", Json.null⟩ (Except.error "no token")
      (fun _ => HttpResult.response 200 none) (Except.ok ()) 6 (Token.mk "old" 0 5)
      [⟨Json.null, none, Payload.textPayload "m", none⟩] "cur"
      = ⟨Token.mk "old" 0 5, [], [], none, .error "no token"⟩ :=
  ⟨by decide,
   flush_token_failure_atomic ⟨"p", "l", Json.null⟩ (Except.error "no token")
     (fun _ => HttpResult.response 200 none) (Except.ok ()) 6 (Token.mk "old" 0 5)
     [⟨Json.null, none, Payload.textPayload "m", none⟩] "cur" "no token" (by decide) rfl⟩

/-!  Claim C7. -/

/-- C7: initial_cursor seeks to the whitespace-trimmed file contents
when the cursor file reads successfully, seeks to the journal tail when
the file does not exist, and returns an error (fatal at startup) on
every other I/O error. -/
theorem initial_cursor_spec :
    (∀ contents : String, initial_cursor (.ok contents) = .ok (.cursor (rustTrim contents)))
  ∧ (∀ e : IoError, e.kind = IoErrorKind.notFound → initial_cursor (.error e) = .ok .tail)
  ∧ (∀ e : IoError, e.kind ≠ IoErrorKind.notFound →
      initial_cursor (.error e) = .error ("Could not read cursor position: " ++ e.msg)) := by
  refine ⟨fun contents => rfl, ?_, ?_⟩
  · intro e he
    show (if e.kind = IoErrorKind.notFound then Except.ok JournalSeek.tail
        else Except.error ("Could not read cursor position: " ++ e.msg)) = _
    rw [if_pos he]
  · intro e he
    show (if e.kind = IoErrorKind.notFound then Except.ok JournalSeek.tail
        else Except.error ("Could not read cursor position: " ++ e.msg)) = _
    rw [if_neg he]

/-- C7 witness: the three concrete outcomes, including the trimming of
surrounding whitespace. -/
theorem initial_cursor_spec_witness :
    initial_cursor (.ok " abc\n") = .ok (.cursor (rustTrim " abc\n"))
  ∧ rustTrim " abc\n" = "abc"
  ∧ initial_cursor (.error ⟨IoErrorKind.notFound, "nf"⟩) = .ok .tail
  ∧ initial_cursor (.error ⟨IoErrorKind.permissionDenied, "denied"⟩)
      = .error ("Could not read cursor position: " ++ "denied") :=
  ⟨initial_cursor_spec.1 " abc\n", by decide,
   initial_cursor_spec.2.1 ⟨IoErrorKind.notFound, "nf"⟩ rfl,
   initial_cursor_spec.2.2 ⟨IoErrorKind.permissionDenied, "denied"⟩ (by decide)⟩

/-!  Claim C8. -/

/-- C8 counterexample: persist_cursor performs no rename at all — it
truncates the target in place and then writes; interrupted after the
truncation, the cursor file holds the empty string, which is neither
the previous cursor "prev" nor the new cursor "new". -/
theorem persist_cursor_counterexample :
    persist_cursor_ops "/var/lib/journaldriver/cursor.pos" "new"
      = [FsOp.create "/var/lib/journaldriver/cursor.pos",
         FsOp.writeAll "/var/lib/journaldriver/cursor.pos" "new"]
  ∧ (persist_cursor_ops "/var/lib/journaldriver/cursor.pos" "new").countP FsOp.isRename = 0
  ∧ applyOps (fun q => if q = "/var/lib/journaldriver/cursor.pos" then some "prev" else none)
      ((persist_cursor_ops "/var/lib/journaldriver/cursor.pos" "new").take 1)
      "/var/lib/journaldriver/cursor.pos" = some ""
  ∧ ("" : String) ≠ "prev" ∧ ("" : String) ≠ "new" := by
  refine ⟨rfl, rfl, rfl, by decide, by decide⟩

/-- C8 (amended): persist_cursor is not crash-safe — it opens the
target file with File::create, which truncates it in place, and then
writes the cursor string directly; no sibling temporary file and no
rename are involved.  An uninterrupted run leaves exactly the new
cursor in the file, but between the truncation and the write the file
is empty, so a crash there loses the previous cursor. -/
theorem persist_cursor_spec :
    ∀ (positionFile cursor : String),
      persist_cursor_ops positionFile cursor
        = [FsOp.create positionFile, FsOp.writeAll positionFile cursor]
      ∧ (∀ op ∈ persist_cursor_ops positionFile cursor, op.isRename = false)
      ∧ (∀ fs : FsState,
          applyOps fs (persist_cursor_ops positionFile cursor) positionFile = some cursor)
      ∧ (∀ fs : FsState,
          applyOps fs ((persist_cursor_ops positionFile cursor).take 1) positionFile
            = some "") := by
  intro positionFile cursor
  refine ⟨rfl, ?_, ?_, ?_⟩
  · intro op hop
    rcases List.mem_cons.1 hop with h | h
    · rw [h]
      rfl
    · rcases List.mem_cons.1 h with h' | h'
      · rw [h']
        rfl
      · simp at h'
  · intro fs
    show (if positionFile = positionFile then
        some (((fun q => if q = positionFile then some "" else fs q) positionFile).getD ""
          ++ cursor) else _) = some cursor
    rw [if_pos rfl]
    show some ((if positionFile = positionFile then some "" else fs positionFile).getD ""
      ++ cursor) = some cursor
    rw [if_pos rfl]
    rfl
  · intro fs
    show (if positionFile = positionFile then some "" else fs positionFile) = some ""
    rw [if_pos rfl]

/-- C8 witness: on a concrete path and cursor, the operation list is
the in-place truncate-then-write, no operation is a rename, the full
run stores the new cursor, and the state after the truncation alone is
the empty file. -/
theorem persist_cursor_spec_witness :
    (FsOp.create "/pos" ∈ persist_cursor_ops "/pos" "new")
  ∧ (FsOp.create "/pos").isRename = false
  ∧ applyOps (fun _ => none) (persist_cursor_ops "/pos" "new") "/pos" = some "new"
  ∧ applyOps (fun _ => none) ((persist_cursor_ops "/pos" "new").take 1) "/pos" = some "" :=
  ⟨by decide,
   (persist_cursor_spec "/pos" "new").2.1 (FsOp.create "/pos") (by decide),
   (persist_cursor_spec "/pos" "new").2.2.1 (fun _ => none),
   (persist_cursor_spec "/pos" "new").2.2.2 (fun _ => none)⟩

/-!  Receiver-loop lemmas. -/

/-- With an expired token and a failing refresh, flush aborts with that
error, posting nothing and persisting nothing. -/
lemma flush_refresh_error (env : Env) (refresh : Except String Token) (http : Nat → HttpResult)
    (persist : Except String Unit) (now : Nat) (token : Token)
    (entries : List LogEntry) (cursor : String) (e : String)
    (hexp : token.is_expired now = true) (href : refresh = .error e) :
    flush env refresh http persist now token entries cursor
      = ⟨token, [], [], none, .error e⟩ := by
  have htok : (if token.is_expired now then refresh else Except.ok token)
      = Except.error e := by
    rw [hexp]
    exact href
  unfold flush
  rw [htok]

/-- Every blocking wait the inner loop performs uses the fixed window
constant as its timeout budget. -/
lemma inner_loop_awaits_fixed :
    ∀ (ticks : List InnerTick) (buf : List LogEntry) (tr : List JournalEv),
      tr.all awaitBudgetIsWindow = true →
      ((inner_loop ticks buf tr).2.all awaitBudgetIsWindow) = true := by
  intro ticks
  induction ticks with
  | nil =>
    intro buf tr h
    exact h
  | cons tick rest ih =>
    intro buf tr h
    rcases tick with ⟨el, nx, aw⟩
    unfold inner_loop
    by_cases he : el > ITERATION_MS
    · rw [if_pos he]
      exact h
    · rw [if_neg he]
      cases nx with
      | error e =>
        show ((inner_loop rest buf
            (tr ++ [.nextRecord (.error e)])).2.all awaitBudgetIsWindow) = true
        apply ih
        rw [List.all_append, h]
        rfl
      | ok o =>
        cases o with
        | some r =>
          show ((inner_loop rest (buf ++ [log_entry_from_record r])
              (tr ++ [.nextRecord (.ok (some r))])).2.all awaitBudgetIsWindow) = true
          apply ih
          rw [List.all_append, h]
          rfl
        | none =>
          cases aw with
          | error e2 =>
            show ((inner_loop rest buf
                (tr ++ [.nextRecord (.ok none),
                        .awaitNextRecord ITERATION_MS (.error e2)])).2.all
              awaitBudgetIsWindow) = true
            apply ih
            rw [List.all_append, h]
            rfl
          | ok o2 =>
            cases o2 with
            | some r2 =>
              show ((inner_loop rest (buf ++ [log_entry_from_record r2])
                  (tr ++ [.nextRecord (.ok none),
                          .awaitNextRecord ITERATION_MS (.ok (some r2))])).2.all
                awaitBudgetIsWindow) = true
              apply ih
              rw [List.all_append, h]
              rfl
            | none =>
              show ((inner_loop rest buf
                  (tr ++ [.nextRecord (.ok none),
                          .awaitNextRecord ITERATION_MS (.ok none)])).2.all
                awaitBudgetIsWindow) = true
              apply ih
              rw [List.all_append, h]
              rfl

/-!  Claim C9. -/

/-- C9 counterexample: with no record available at elapsed time 300 ms,
the blocking wait is budgeted the full 500 ms window, not the remaining
200 ms; and at an elapsed time of exactly 500 ms (not under the window)
the inner loop still performs an iteration (its trace has two calls). -/
theorem inner_loop_budget_counterexample :
    inner_loop [⟨300, Except.ok none, Except.ok none⟩] [] []
      = ([], [JournalEv.nextRecord (Except.ok none),
              JournalEv.awaitNextRecord ITERATION_MS (Except.ok none)])
  ∧ ITERATION_MS ≠ ITERATION_MS - 300
  ∧ (inner_loop [⟨ITERATION_MS, Except.ok none, Except.ok none⟩] [] []).2.length = 2 :=
  ⟨rfl, by decide, rfl⟩

/-- C9 (amended): in every inner-loop iteration the read first drains
an already-available record without any blocking call, and only when
none is available does it block — with the fixed 500 ms window constant
as the timeout budget, not the remaining window time; the inner loop
iterates only while the elapsed time is at most (not strictly under)
the 500 ms window, stopping at the first larger elapsed time. -/
theorem inner_loop_spec :
    (∀ (timeout : Nat) (step : ReadStep) (r : JournalRecord),
      step.next = .ok (some r) →
      receive_next_record timeout step = (.ok (some r), [.nextRecord (.ok (some r))]))
  ∧ (∀ (timeout : Nat) (step : ReadStep),
      step.next = .ok none →
      receive_next_record timeout step
        = (step.await, [.nextRecord (.ok none), .awaitNextRecord timeout step.await]))
  ∧ (∀ (ticks : List InnerTick) (buf : List LogEntry),
      ((inner_loop ticks buf []).2.all awaitBudgetIsWindow) = true)
  ∧ (∀ (tick : InnerTick) (ticks : List InnerTick) (buf : List LogEntry)
      (tr : List JournalEv),
      tick.elapsedMs > ITERATION_MS → inner_loop (tick :: ticks) buf tr = (buf, tr)) := by
  refine ⟨?_, ?_, ?_, ?_⟩
  · intro timeout step r h
    unfold receive_next_record
    rw [h]
  · intro timeout step h
    unfold receive_next_record
    rw [h]
  · intro ticks buf
    exact inner_loop_awaits_fixed ticks buf [] rfl
  · intro tick ticks buf tr h
    unfold inner_loop
    rw [if_pos h]

/-- C9 witness: a ready record is drained without blocking, an empty
poll blocks with the window budget, and an over-window tick ends the
loop. -/
theorem inner_loop_spec_witness :
    receive_next_record ITERATION_MS ⟨Except.ok (some [("MESSAGE", "hi")]), Except.ok none⟩
      = (Except.ok (some [("MESSAGE", "hi")]),
         [JournalEv.nextRecord (Except.ok (some [("MESSAGE", "hi")]))])
  ∧ receive_next_record ITERATION_MS ⟨Except.ok none, Except.error "gone"⟩
      = (Except.error "gone",
         [JournalEv.nextRecord (Except.ok none),
          JournalEv.awaitNextRecord ITERATION_MS (Except.error "gone")])
  ∧ inner_loop [⟨501, Except.ok none, Except.ok none⟩] [] [] = ([], []) :=
  ⟨inner_loop_spec.1 ITERATION_MS ⟨Except.ok (some [("MESSAGE", "hi")]), Except.ok none⟩
     [("MESSAGE", "hi")] rfl,
   inner_loop_spec.2.1 ITERATION_MS ⟨Except.ok none, Except.error "gone"⟩ rfl,
   inner_loop_spec.2.2.2 ⟨501, Except.ok none, Except.ok none⟩ [] [] [] (by decide)⟩

/-!  Claim C5. -/

/-- C5 counterexample: a run of the receiver loop with two scheduled
outer iterations, where the first flush fails to refresh an expired
token — the loop returns that error after one iteration and never
executes the second (the loop terminates rather than trying again next
window). -/
theorem receiver_loop_token_failure_counterexample :
    receiver_run ⟨"p", "l", Json.null⟩
      [⟨[⟨0, Except.ok (some [("MESSAGE", "x")]), Except.ok none⟩],
        Except.ok "c1", Except.error "token failure",
        fun _ => HttpResult.transportError "unreachable", Except.ok (), 10⟩,
       ⟨[⟨0, Except.ok (some [("MESSAGE", "y")]), Except.ok none⟩],
        Except.ok "c2", Except.error "token failure",
        fun _ => HttpResult.transportError "unreachable", Except.ok (), 20⟩]
      ⟨"stale", 0, 5⟩ []
      = (Except.error "token failure", 1) := rfl

/-- C5 (amended): when fetching or signing a token fails during a
flush, flush returns the error and the question-mark in receiver_loop
propagates it — the receiver loop terminates with that error after the
failing iteration (main then aborts) instead of retrying on the next
window iteration. -/
theorem receiver_loop_token_failure_spec :
    ∀ (env : Env) (o : OuterTick) (rest : List OuterTick) (token : Token)
      (buf : List LogEntry) (e : String) (cursor : String),
      (inner_loop o.ticks buf []).1.isEmpty = false →
      o.cursorResult = .ok cursor →
      token.is_expired o.flushNow = true →
      o.refresh = .error e →
      receiver_run env (o :: rest) token buf = (.error e, 1) := by
  intro env o rest token buf e cursor hne hcur hexp href
  have hflush := flush_refresh_error env o.refresh o.http o.persist o.flushNow token
    ((inner_loop o.ticks buf []).1) cursor e hexp href
  have hstep : receiver_step env token buf o = .error e := by
    simp only [receiver_step, hne, Bool.false_eq_true, if_false, hcur, hflush]
  unfold receiver_run
  rw [hstep]

/-- C5 witness: a concrete expired token whose refresh fails ends the
run with that error after the single scheduled iteration. -/
theorem receiver_loop_token_failure_spec_witness :
    ((inner_loop [⟨0, Except.ok (some [("MESSAGE", "w")]), Except.ok none⟩]
        ([] : List LogEntry) []).1.isEmpty = false)
  ∧ receiver_run ⟨"pw", "lw", Json.null⟩
      [⟨[⟨0, Except.ok (some [("MESSAGE", "w")]), Except.ok none⟩],
        Except.ok "cw", Except.error "sign failed",
        fun _ => HttpResult.response 200 none, Except.ok (), 7⟩]
      ⟨"tw", 0, 3⟩ []
      = (Except.error "sign failed", 1) :=
  ⟨rfl,
   receiver_loop_token_failure_spec ⟨"pw", "lw", Json.null⟩
     ⟨[⟨0, Except.ok (some [("MESSAGE", "w")]), Except.ok none⟩],
      Except.ok "cw", Except.error "sign failed",
      fun _ => HttpResult.response 200 none, Except.ok (), 7⟩
     [] ⟨"tw", 0, 3⟩ [] "sign failed" "cw" rfl rfl (by decide) rfl⟩

end Journaldriver
